import Mathlib

/-
Formal model of the Movie Ticket Booking System core (src/code.py).

The inventory store is modelled as the two mutable relations of the sqlite
schema that the booking engine reads and writes: `ticket` and `ticket_seat`
(init_database, code.py lines 279-303). Row ids are assigned the way sqlite
assigns INTEGER PRIMARY KEY rowids on insert: one greater than the largest
existing rowid (`nextId`). Prices and totals are integers (`Int`), since the
subtraction in cancel_seats can go below zero. Statuses are the literal
strings "BOOKED" and "CANCELLED" used by the source.

Each operation of BookingService is translated as a pure function from a
store to a store paired with an `Except` result; the sqlite transaction
wrapper (BookingService.transaction) rolls back on any exception, so every
error branch returns the unmodified input store. The UNIQUE(show_id, row, col)
constraint of ticket_seat is checked at each insert, as sqlite does.
-/

set_option linter.unusedVariables false

namespace MovieTicket

/-- Row of the `ticket` table: id, show_id, user, mobile, status, total. -/
structure Ticket where
  id : Nat
  showId : Nat
  user : String
  mobile : String
  status : String
  total : Int
deriving DecidableEq

/-- Row of the `ticket_seat` table: id, ticket_id, show_id, row, col, price. -/
structure TicketSeat where
  id : Nat
  ticketId : Nat
  showId : Nat
  row : Nat
  col : Nat
  price : Int
deriving DecidableEq

/-- The mutable part of the inventory store: the ticket and ticket_seat
relations. -/
structure Store where
  tickets : List Ticket
  ticketSeats : List TicketSeat
deriving DecidableEq

/-- Store with no reservations, as created by init_database. -/
def emptyStore : Store := ⟨[], []⟩

/-- Rowid assigned by sqlite to a fresh INTEGER PRIMARY KEY row: one more
than the largest existing id. -/
def nextId (l : List Nat) : Nat := l.foldr max 0 + 1

/-- SeatMapService.get_price (code.py line 49): rows 0,1,2 are Standard at
100, all other rows are Premium at 150. -/
def get_price (row : Nat) : Int :=
  if row = 0 ∨ row = 1 ∨ row = 2 then 100 else 150

/-- SeatMapService.get_seat_type (code.py line 53): same partition of rows
as get_price. -/
def get_seat_type (row : Nat) : String :=
  if row = 0 ∨ row = 1 ∨ row = 2 then "Standard" else "Premium"

/-- The join condition of the availability queries: some ticket row with
this id has status BOOKED. -/
def isBookedTicket (s : Store) (tid : Nat) : Bool :=
  s.tickets.any (fun t => decide (t.id = tid ∧ t.status = "BOOKED"))

/-- BookingService.is_seat_available (code.py line 124): true when no
ticket_seat row at (show_id, row, col) is attached to a BOOKED ticket. -/
def is_seat_available (s : Store) (showId row col : Nat) : Bool :=
  !(s.ticketSeats.any (fun ts =>
      decide (ts.showId = showId ∧ ts.row = row ∧ ts.col = col) &&
        isBookedTicket s ts.ticketId))

/-- Errors raised by the booking engine. The source raises ValueError with a
message for the first four and sqlite raises IntegrityError for the UNIQUE
constraint; only the distinct error identities matter to the model. -/
inductive BErr where
  | noSeats
  | alreadyBooked (row col : Nat)
  | becameUnavailable (seat : Option (Nat × Nat))
  | integrity
  | notFound
deriving DecidableEq

/-- First loop of book_seats (code.py lines 150-156): for each requested
seat, fail on the first unavailable one, otherwise record (row, col, price).
The running total of the source is the sum of the recorded prices. -/
def checkAndPrice (price : Nat → Int) (s : Store) (showId : Nat) :
    List (Nat × Nat) → Except BErr (List (Nat × Nat × Int))
  | [] => .ok []
  | (r, c) :: rest =>
    if is_seat_available s showId r c then
      match checkAndPrice price s showId rest with
      | .ok ds => .ok ((r, c, price r) :: ds)
      | .error e => .error e
    else .error (.alreadyBooked r c)

/-- BookingService.recheck_seats (code.py line 134): re-verify each seat,
returning the first occupied one if any. -/
def recheck_seats (s : Store) (showId : Nat) :
    List (Nat × Nat) → Bool × Option (Nat × Nat)
  | [] => (true, none)
  | (r, c) :: rest =>
    if is_seat_available s showId r c then recheck_seats s showId rest
    else (false, some (r, c))

/-- Seat-insert loop of book_seats (code.py lines 177-181). Each INSERT into
ticket_seat is subject to the UNIQUE(show_id, row, col) constraint of the
schema, checked against all rows present at that moment. -/
def insertRows (tid showId : Nat) :
    List TicketSeat → List (Nat × Nat × Int) → Except BErr (List TicketSeat)
  | cur, [] => .ok cur
  | cur, (r, c, p) :: rest =>
    if cur.any (fun ts => decide (ts.showId = showId ∧ ts.row = r ∧ ts.col = c)) then
      .error .integrity
    else
      insertRows tid showId
        (cur ++ [⟨nextId (cur.map TicketSeat.id), tid, showId, r, c, p⟩]) rest

/-- BookingService.book_seats (code.py lines 141-183), generalised over the
pricing function it consults (the source calls seat_map_service.get_price).
Any error leaves the store unchanged: pre-lock errors happen before any
write and in-transaction errors are rolled back by the transaction wrapper.
The rows and cols arguments are accepted and never read, exactly as in the
source. -/
def bookSeatsWith (price : Nat → Int) (s : Store) (showId : Nat)
    (user mobile : String) (seats : List (Nat × Nat)) (rows cols : Nat) :
    Store × Except BErr (Nat × Int × List (Nat × Nat × Int)) :=
  if seats.isEmpty then (s, .error .noSeats)
  else
    match checkAndPrice price s showId seats with
    | .error e => (s, .error e)
    | .ok seatDetails =>
      let totalPrice : Int := (seatDetails.map (fun d => d.2.2)).sum
      match recheck_seats s showId seats with
      | (false, occ) => (s, .error (.becameUnavailable occ))
      | (true, _) =>
        let tid := nextId (s.tickets.map Ticket.id)
        let newTicket : Ticket := ⟨tid, showId, user, mobile, "BOOKED", totalPrice⟩
        match insertRows tid showId s.ticketSeats seatDetails with
        | .error e => (s, .error e)
        | .ok seats1 =>
          ({ tickets := s.tickets ++ [newTicket], ticketSeats := seats1 },
           .ok (tid, totalPrice, seatDetails))

/-- BookingService.book_seats with the pricing policy of the source. -/
def book_seats (s : Store) (showId : Nat) (user mobile : String)
    (seats : List (Nat × Nat)) (rows cols : Nat) :
    Store × Except BErr (Nat × Int × List (Nat × Nat × Int)) :=
  bookSeatsWith get_price s showId user mobile seats rows cols

/-- Snapshotted price looked up by the refund loop of cancel_seats
(code.py lines 202-209): the price of the first ticket_seat row of this
ticket at (row, col), or 0 when the pair is not part of the ticket. -/
def priceAt (s : Store) (tid : Nat) (q : Nat × Nat) : Int :=
  match s.ticketSeats.find? (fun ts =>
      decide (ts.ticketId = tid ∧ ts.row = q.1 ∧ ts.col = q.2)) with
  | some ts => ts.price
  | none => 0

/-- Refund loop of cancel_seats: sum of the snapshotted prices of the
requested pairs, all looked up before any deletion. -/
def refundFor (s : Store) (tid : Nat) : List (Nat × Nat) → Int
  | [] => 0
  | q :: rest => priceAt s tid q + refundFor s tid rest

/-- Deletion loop of cancel_seats (code.py lines 212-216): one DELETE per
requested pair, each removing the rows of this ticket at that (row, col). -/
def deleteSeats (tid : Nat) (cur : List TicketSeat) :
    List (Nat × Nat) → List TicketSeat
  | [] => cur
  | (r, c) :: rest =>
    deleteSeats tid
      (cur.filter (fun ts => !decide (ts.ticketId = tid ∧ ts.row = r ∧ ts.col = c)))
      rest

/-- BookingService.cancel_seats (code.py lines 185-237). Looks up the BOOKED
ticket, sums the refund, deletes the requested rows, then either marks the
ticket CANCELLED with total 0 (no seats remain) or subtracts the refund from
the stored total. -/
def cancel_seats (s : Store) (ticketId : Nat) (seatsToCancel : List (Nat × Nat)) :
    Store × Except BErr Int :=
  match s.tickets.find? (fun t => decide (t.id = ticketId ∧ t.status = "BOOKED")) with
  | none => (s, .error .notFound)
  | some t =>
    let refund := refundFor s ticketId seatsToCancel
    let seats1 := deleteSeats ticketId s.ticketSeats seatsToCancel
    let remaining := (seats1.filter (fun ts => decide (ts.ticketId = ticketId))).length
    let tickets1 :=
      if remaining = 0 then
        s.tickets.map (fun u =>
          if u.id = ticketId then { u with status := "CANCELLED", total := 0 } else u)
      else
        s.tickets.map (fun u =>
          if u.id = ticketId then { u with total := t.total - refund } else u)
    ({ tickets := tickets1, ticketSeats := seats1 }, .ok refund)

/-- Number of ticket_seat rows of the ticket that survive the deletion loop
of cancel_seats (the COUNT(*) at code.py line 220). -/
def remainingAfter (s : Store) (tid : Nat) (pairs : List (Nat × Nat)) : Nat :=
  ((deleteSeats tid s.ticketSeats pairs).filter
    (fun ts => decide (ts.ticketId = tid))).length

/-- The (row, col) pairs of ticket_seat rows of a showing attached to BOOKED
tickets: the rows read by SeatMapService.build_seat_map and by the occupancy
invariant. -/
def bookedSeatsOf (s : Store) (showId : Nat) : List (Nat × Nat) :=
  (s.ticketSeats.filter (fun ts =>
      decide (ts.showId = showId) && isBookedTicket s ts.ticketId)).map
    (fun ts => (ts.row, ts.col))

/-- One step of the occupancy loop of build_seat_map (code.py lines 69-71):
mark the cell occupied when it is inside the grid. -/
def markOccupied (rows cols : Nat) (g : List (List Bool)) (rc : Nat × Nat) :
    List (List Bool) :=
  if rc.1 < rows && rc.2 < cols then
    g.set rc.1 ((g.getD rc.1 []).set rc.2 false)
  else g

/-- SeatMapService.build_seat_map (code.py lines 57-73): start from an
all-available rows-by-cols grid and mark each booked in-bounds cell
occupied (false). -/
def build_seat_map (s : Store) (showId rows cols : Nat) : List (List Bool) :=
  (bookedSeatsOf s showId).foldl (markOccupied rows cols)
    (List.replicate rows (List.replicate cols true))

/-- States of the booking store reachable from the empty store by any
sequence of book_seats and cancel_seats calls with arbitrary arguments. -/
inductive Reachable : Store → Prop where
  | empty : Reachable emptyStore
  | book : ∀ (s : Store) (showId : Nat) (user mobile : String)
      (seats : List (Nat × Nat)) (rows cols : Nat),
      Reachable s → Reachable (book_seats s showId user mobile seats rows cols).1
  | cancel : ∀ (s : Store) (tid : Nat) (pairs : List (Nat × Nat)),
      Reachable s → Reachable (cancel_seats s tid pairs).1

/-! ### Basic facts about ids and the pricing policy -/

lemma le_foldr_max (x : Nat) (l : List Nat) (h : x ∈ l) : x ≤ l.foldr max 0 := by
  induction l with
  | nil => cases h
  | cons a l ih =>
    rcases List.mem_cons.mp h with rfl | h
    · exact Nat.le_max_left _ _
    · exact Nat.le_trans (ih h) (Nat.le_max_right _ _)

lemma mem_lt_nextId (x : Nat) (l : List Nat) (h : x ∈ l) : x < nextId l :=
  Nat.lt_succ_of_le (le_foldr_max x l h)

lemma nextId_not_mem (l : List Nat) : nextId l ∉ l := fun h =>
  Nat.lt_irrefl _ (mem_lt_nextId _ _ h)

lemma get_price_lt (row : Nat) (h : row < 3) : get_price row = 100 := by
  unfold get_price
  rw [if_pos (by omega)]

lemma get_price_ge (row : Nat) (h : 3 ≤ row) : get_price row = 150 := by
  unfold get_price
  rw [if_neg (by omega)]

/-- C7: the pricing policy is a pure total function of the row index: rows
0, 1 and 2 are priced at the Standard amount 100 and typed "Standard",
every other row is priced at the Premium amount 150 and typed "Premium",
150 exceeds 100, and get_price and get_seat_type induce the same partition
of the rows. -/
theorem C7_pricing_policy (row : Nat) :
    get_price row = (if row < 3 then 100 else 150) ∧
    get_seat_type row = (if row < 3 then "Standard" else "Premium") ∧
    (100 : Int) < 150 ∧
    (get_price row = 100 ↔ get_seat_type row = "Standard") ∧
    (get_price row = 150 ↔ get_seat_type row = "Premium") := by
  unfold get_price get_seat_type
  by_cases h : row = 0 ∨ row = 1 ∨ row = 2
  · rw [if_pos h, if_pos h, if_pos (by omega), if_pos (by omega)]
    refine ⟨rfl, rfl, by norm_num, by simp, by simp⟩
  · rw [if_neg h, if_neg h, if_neg (by omega), if_neg (by omega)]
    refine ⟨rfl, rfl, by norm_num, by simp, by simp⟩

/-! ### The shape of a successful or failed booking -/

lemma checkAndPrice_ok (price : Nat → Int) (s : Store) (showId : Nat)
    (seats : List (Nat × Nat)) (ds : List (Nat × Nat × Int))
    (h : checkAndPrice price s showId seats = .ok ds) :
    ds = seats.map (fun q => (q.1, q.2, price q.1)) := by
  induction seats generalizing ds with
  | nil =>
    simp only [checkAndPrice] at h
    cases h
    simp
  | cons q rest ih =>
    obtain ⟨r, c⟩ := q
    simp only [checkAndPrice] at h
    by_cases hav : is_seat_available s showId r c
    · rw [if_pos hav] at h
      cases hrec : checkAndPrice price s showId rest with
      | ok ds0 =>
        rw [hrec] at h
        cases h
        simp [ih ds0 hrec]
      | error e => rw [hrec] at h; cases h
    · rw [if_neg hav] at h
      cases h

lemma insertRows_ok (tid showId : Nat) (details : List (Nat × Nat × Int))
    (cur res : List TicketSeat)
    (h : insertRows tid showId cur details = .ok res) :
    ∃ newRows, res = cur ++ newRows ∧
      newRows.map (fun ts => (ts.ticketId, ts.showId, ts.row, ts.col, ts.price)) =
        details.map (fun d => (tid, showId, d.1, d.2.1, d.2.2)) := by
  induction details generalizing cur with
  | nil =>
    simp only [insertRows] at h
    cases h
    exact ⟨[], by simp⟩
  | cons d rest ih =>
    obtain ⟨r, c, p⟩ := d
    simp only [insertRows] at h
    by_cases hdup :
        cur.any (fun ts => decide (ts.showId = showId ∧ ts.row = r ∧ ts.col = c))
    · rw [if_pos hdup] at h; cases h
    · rw [if_neg hdup] at h
      obtain ⟨newRows, hres, hmap⟩ := ih _ h
      refine ⟨⟨nextId (cur.map TicketSeat.id), tid, showId, r, c, p⟩ :: newRows,
        by simpa using hres, by simpa using hmap⟩

/-- Every error exit of bookSeatsWith leaves the store unchanged: the
pre-lock validation errors happen before any write, and the transaction
wrapper rolls back the in-transaction errors. -/
lemma bookSeatsWith_error (price : Nat → Int) (s : Store) (showId : Nat)
    (user mobile : String) (seats : List (Nat × Nat)) (rows cols : Nat)
    (s1 : Store) (e : BErr)
    (h : bookSeatsWith price s showId user mobile seats rows cols = (s1, .error e)) :
    s1 = s := by
  unfold bookSeatsWith at h
  by_cases hemp : seats.isEmpty
  · rw [if_pos hemp] at h
    injection h with h1 h2
    exact h1.symm
  · rw [if_neg hemp] at h
    cases hcp : checkAndPrice price s showId seats with
    | error e0 =>
      rw [hcp] at h
      dsimp only at h
      injection h with h1 h2
      exact h1.symm
    | ok ds =>
      rw [hcp] at h
      dsimp only at h
      cases hrc : recheck_seats s showId seats with
      | mk b occ =>
        cases b
        · rw [hrc] at h
          dsimp only at h
          injection h with h1 h2
          exact h1.symm
        · rw [hrc] at h
          dsimp only at h
          cases hins : insertRows (nextId (s.tickets.map Ticket.id)) showId
              s.ticketSeats ds with
          | error e1 =>
            rw [hins] at h
            dsimp only at h
            injection h with h1 h2
            exact h1.symm
          | ok seats1 =>
            rw [hins] at h
            dsimp only at h
            injection h with h1 h2
            cases h2

/-- Shape of a successful booking: the ticket id is the fresh rowid, the
confirmed details are the requested seats with their policy prices, the
returned total is the sum of those prices, exactly one BOOKED ticket
carrying that total is appended, and exactly one ticket_seat row per
requested seat is appended, owned by the new ticket. -/
lemma bookSeatsWith_ok (price : Nat → Int) (s : Store) (showId : Nat)
    (user mobile : String) (seats : List (Nat × Nat)) (rows cols : Nat)
    (s1 : Store) (tid : Nat) (total : Int) (details : List (Nat × Nat × Int))
    (h : bookSeatsWith price s showId user mobile seats rows cols =
      (s1, .ok (tid, total, details))) :
    tid = nextId (s.tickets.map Ticket.id) ∧
    details = seats.map (fun q => (q.1, q.2, price q.1)) ∧
    total = (seats.map (fun q => price q.1)).sum ∧
    s1.tickets = s.tickets ++ [⟨tid, showId, user, mobile, "BOOKED", total⟩] ∧
    (∃ newRows, s1.ticketSeats = s.ticketSeats ++ newRows ∧
      newRows.map (fun ts => (ts.ticketId, ts.showId, ts.row, ts.col, ts.price)) =
        seats.map (fun q => (tid, showId, q.1, q.2, price q.1))) ∧
    insertRows tid showId s.ticketSeats details = .ok s1.ticketSeats := by
  unfold bookSeatsWith at h
  by_cases hemp : seats.isEmpty
  · rw [if_pos hemp] at h
    injection h with h1 h2
    cases h2
  · rw [if_neg hemp] at h
    cases hcp : checkAndPrice price s showId seats with
    | error e0 =>
      rw [hcp] at h
      dsimp only at h
      injection h with h1 h2
      cases h2
    | ok ds =>
      rw [hcp] at h
      dsimp only at h
      cases hrc : recheck_seats s showId seats with
      | mk b occ =>
        cases b
        · rw [hrc] at h
          dsimp only at h
          injection h with h1 h2
          cases h2
        · rw [hrc] at h
          dsimp only at h
          cases hins : insertRows (nextId (s.tickets.map Ticket.id)) showId
              s.ticketSeats ds with
          | error e1 =>
            rw [hins] at h
            dsimp only at h
            injection h with h1 h2
            cases h2
          | ok seats1 =>
            rw [hins] at h
            dsimp only at h
            injection h with h1 h2
            injection h2 with h3
            injection h3 with h4 h5
            injection h5 with h6 h7
            have hds := checkAndPrice_ok price s showId seats ds hcp
            subst h4 h6 h7 hds
            obtain ⟨newRows, hres, hmap⟩ := insertRows_ok _ _ _ _ _ hins
            refine ⟨rfl, rfl, ?_, ?_, ⟨newRows, ?_, ?_⟩, ?_⟩
            · rw [List.map_map]
              rfl
            · rw [← h1]
            · rw [← h1, hres]
            · rw [hmap, List.map_map]
              rfl
            · rw [← h1]
              exact hins

/-- C1: every call to book_seats is all-or-nothing. On an error the store is
returned unchanged (no reservation or reserved-seat row is created and the
existing rows are untouched); on success exactly one BOOKED ticket is
appended whose total, and the returned total, is the sum of the per-seat
tier prices, and exactly one ticket_seat row per requested seat is appended,
owned by the new ticket and carrying its tier price. -/
theorem C1_book_all_or_nothing (s : Store) (showId : Nat) (user mobile : String)
    (seats : List (Nat × Nat)) (rows cols : Nat) :
    match book_seats s showId user mobile seats rows cols with
    | (s1, .error _) => s1 = s
    | (s1, .ok (tid, total, details)) =>
        total = (seats.map (fun q => get_price q.1)).sum ∧
        details = seats.map (fun q => (q.1, q.2, get_price q.1)) ∧
        s1.tickets = s.tickets ++ [⟨tid, showId, user, mobile, "BOOKED", total⟩] ∧
        s1.ticketSeats.take s.ticketSeats.length = s.ticketSeats ∧
        (s1.ticketSeats.drop s.ticketSeats.length).map
            (fun ts => (ts.ticketId, ts.showId, ts.row, ts.col, ts.price)) =
          seats.map (fun q => (tid, showId, q.1, q.2, get_price q.1)) := by
  cases hb : book_seats s showId user mobile seats rows cols with
  | mk s1 res =>
    cases res with
    | error e =>
      exact bookSeatsWith_error get_price s showId user mobile seats rows cols s1 e hb
    | ok v =>
      obtain ⟨tid, total, details⟩ := v
      obtain ⟨htid, hdet, htot, htk, ⟨newRows, hseats, hmap⟩, hins⟩ :=
        bookSeatsWith_ok get_price s showId user mobile seats rows cols
          s1 tid total details hb
      refine ⟨htot, hdet, htk, ?_, ?_⟩
      · rw [hseats]
        exact List.take_left _ _
      · rw [hseats, List.drop_left, hmap]

/-- C2 (divergence witness): book_seats performs no bounds or duplicate
validation of its seats argument. Requesting seat (7, 0) on a 7 by 7 grid
(row index equal to R) succeeds and creates an occupied out-of-bounds pair
instead of failing with an InvalidRequest error, and a request with a
duplicated pair fails only through the UNIQUE constraint inside the locked
transaction (integrity error), not with a pre-lock InvalidRequest. -/
theorem C2_no_bounds_validation :
    (book_seats emptyStore 1 "u" "9" [(7, 0)] 7 7).2 = .ok (1, 150, [(7, 0, 150)]) ∧
    (7, 0) ∈ bookedSeatsOf (book_seats emptyStore 1 "u" "9" [(7, 0)] 7 7).1 1 ∧
    book_seats emptyStore 1 "u" "9" [(0, 0), (0, 0)] 7 7 =
      (emptyStore, .error .integrity) :=
  ⟨rfl, by decide, rfl⟩

/-! ### Cancellation -/

lemma deleteSeats_eq_filter (tid : Nat) (cur : List TicketSeat)
    (pairs : List (Nat × Nat)) :
    deleteSeats tid cur pairs =
      cur.filter (fun ts =>
        !(decide (ts.ticketId = tid) && pairs.contains (ts.row, ts.col))) := by
  induction pairs generalizing cur with
  | nil => simp [deleteSeats]
  | cons q rest ih =>
    obtain ⟨r, c⟩ := q
    rw [deleteSeats, ih, List.filter_filter]
    congr 1
    funext ts
    by_cases h1 : ts.ticketId = tid <;> by_cases h2 : ts.row = r <;>
      by_cases h3 : ts.col = c <;>
      simp [h1, h2, h3, List.contains_cons, Prod.ext_iff]

lemma refundFor_eq_filter (s : Store) (tid : Nat) (pairs : List (Nat × Nat)) :
    refundFor s tid pairs =
      ((pairs.filter (fun q => s.ticketSeats.any (fun ts =>
          decide (ts.ticketId = tid ∧ ts.row = q.1 ∧ ts.col = q.2)))).map
        (fun q => priceAt s tid q)).sum := by
  induction pairs with
  | nil => simp [refundFor]
  | cons q rest ih =>
    rw [refundFor, ih]
    by_cases h : s.ticketSeats.any (fun ts =>
        decide (ts.ticketId = tid ∧ ts.row = q.1 ∧ ts.col = q.2)) = true
    · rw [List.filter_cons, if_pos h, List.map_cons, List.sum_cons]
    · have hnone : s.ticketSeats.find? (fun ts =>
          decide (ts.ticketId = tid ∧ ts.row = q.1 ∧ ts.col = q.2)) = none :=
        List.find?_eq_none.mpr
          (fun ts hts hpred => h (List.any_eq_true.mpr ⟨ts, hts, hpred⟩))
      have hz : priceAt s tid q = 0 := by
        unfold priceAt
        rw [hnone]
      rw [List.filter_cons, if_neg h, hz, zero_add]

/-- C4: cancel_seats on an existing BOOKED reservation never fails, whatever
pairs are requested; the returned refund is the sum of the snapshotted
prices of those requested pairs that are reserved-seat rows of this
reservation (a pair not part of the reservation contributes nothing), and
exactly the matching reserved-seat rows of this reservation are deleted. -/
theorem C4_cancel_refund_and_deletion (s : Store) (tid : Nat)
    (pairs : List (Nat × Nat)) (t : Ticket)
    (ht : s.tickets.find? (fun u => decide (u.id = tid ∧ u.status = "BOOKED")) =
      some t) :
    (cancel_seats s tid pairs).2 =
      .ok (((pairs.filter (fun q => s.ticketSeats.any (fun ts =>
          decide (ts.ticketId = tid ∧ ts.row = q.1 ∧ ts.col = q.2)))).map
        (fun q => priceAt s tid q)).sum) ∧
    (cancel_seats s tid pairs).1.ticketSeats =
      s.ticketSeats.filter (fun ts =>
        !(decide (ts.ticketId = tid) && pairs.contains (ts.row, ts.col))) := by
  unfold cancel_seats
  rw [ht]
  dsimp only
  exact ⟨by rw [refundFor_eq_filter], by rw [deleteSeats_eq_filter]⟩

/-- Witness store for the refund theorem: one BOOKED ticket with two seats. -/
def storeA : Store :=
  ⟨[⟨1, 1, "ann", "7", "BOOKED", 250⟩],
   [⟨1, 1, 1, 0, 0, 100⟩, ⟨2, 1, 1, 3, 0, 150⟩]⟩

theorem C4_cancel_refund_and_deletion_witness :
    (cancel_seats storeA 1 [(0, 0), (6, 6)]).2 =
      .ok ((([(0, 0), (6, 6)].filter (fun q => storeA.ticketSeats.any (fun ts =>
          decide (ts.ticketId = 1 ∧ ts.row = q.1 ∧ ts.col = q.2)))).map
        (fun q => priceAt storeA 1 q)).sum) ∧
    (cancel_seats storeA 1 [(0, 0), (6, 6)]).1.ticketSeats =
      storeA.ticketSeats.filter (fun ts =>
        !(decide (ts.ticketId = 1) && [(0, 0), (6, 6)].contains (ts.row, ts.col))) :=
  C4_cancel_refund_and_deletion storeA 1 [(0, 0), (6, 6)]
    ⟨1, 1, "ann", "7", "BOOKED", 250⟩ rfl

lemma find?_update (l : List Ticket) (tid : Nat) (g : Ticket → Ticket) (t : Ticket)
    (hg : ∀ u, (g u).id = u.id) (htl : t ∈ l) (hid : t.id = tid)
    (hnd : (l.map Ticket.id).Nodup) :
    (l.map (fun u => if u.id = tid then g u else u)).find?
      (fun u => decide (u.id = tid)) = some (g t) := by
  induction l with
  | nil => cases htl
  | cons a l ih =>
    have hnd2 : a.id ∉ l.map Ticket.id ∧ (l.map Ticket.id).Nodup := by
      simpa [List.nodup_cons] using hnd
    by_cases ha : a.id = tid
    · have hat : a = t := by
        rcases List.mem_cons.mp htl with rfl | hmem
        · rfl
        · exfalso
          apply hnd2.1
          rw [ha, ← hid]
          exact List.mem_map_of_mem _ hmem
      subst hat
      rw [List.map_cons, if_pos ha, List.find?_cons_of_pos _ (by simp [hg, ha])]
    · rw [List.map_cons, if_neg ha, List.find?_cons_of_neg _ (by simp [ha])]
      apply ih ?_ hnd2.2
      rcases List.mem_cons.mp htl with rfl | hmem
      · exact absurd hid ha
      · exact hmem

/-- C5 (amended): after a successful cancel_seats, if zero reserved seats of
the reservation remain its status is set to CANCELLED and its total to 0;
otherwise its status stays unchanged and its total is set to the previous
total minus the refund. The subtraction is committed as-is, without any
negativity check (see the counterexample for a committed negative total). -/
theorem C5_cancel_status_and_total (s : Store) (tid : Nat)
    (pairs : List (Nat × Nat)) (t : Ticket)
    (ht : s.tickets.find? (fun u => decide (u.id = tid ∧ u.status = "BOOKED")) =
      some t)
    (hnd : (s.tickets.map Ticket.id).Nodup) :
    (cancel_seats s tid pairs).2 = .ok (refundFor s tid pairs) ∧
    (cancel_seats s tid pairs).1.tickets.find? (fun u => decide (u.id = tid)) =
      some (if remainingAfter s tid pairs = 0
            then { t with status := "CANCELLED", total := 0 }
            else { t with total := t.total - refundFor s tid pairs }) := by
  have htl := List.mem_of_find?_eq_some ht
  have hpt := List.find?_some ht
  rw [decide_eq_true_eq] at hpt
  unfold cancel_seats
  rw [ht]
  dsimp only
  refine ⟨rfl, ?_⟩
  by_cases hrem : remainingAfter s tid pairs = 0
  · have hrem0 : ((deleteSeats tid s.ticketSeats pairs).filter
        (fun ts => decide (ts.ticketId = tid))).length = 0 := hrem
    rw [if_pos hrem, if_pos hrem0]
    exact find?_update _ _ _ _ (fun u => rfl) htl hpt.1 hnd
  · have hrem0 : ¬ ((deleteSeats tid s.ticketSeats pairs).filter
        (fun ts => decide (ts.ticketId = tid))).length = 0 := hrem
    rw [if_neg hrem, if_neg hrem0]
    exact find?_update _ _ _ _ (fun u => rfl) htl hpt.1 hnd

/-- C5 (counterexample to the claim as stated): booking seats (0,0) and
(0,1) for 100 each and then cancelling with the pair (0,0) repeated three
times returns a refund of 300 and commits the reservation with the negative
total -100 while its status is still BOOKED. The code performs no
negativity check before committing. -/
theorem C5_negative_total_committed :
    (cancel_seats (book_seats emptyStore 1 "u" "9" [(0, 0), (0, 1)] 7 7).1 1
        [(0, 0), (0, 0), (0, 0)]).2 = .ok 300 ∧
    (cancel_seats (book_seats emptyStore 1 "u" "9" [(0, 0), (0, 1)] 7 7).1 1
        [(0, 0), (0, 0), (0, 0)]).1.tickets =
      [⟨1, 1, "u", "9", "BOOKED", -100⟩] ∧
    (-100 : Int) < 0 :=
  ⟨rfl, rfl, by norm_num⟩

/-- Witness store for the status-and-total theorem: one BOOKED ticket of a
different showing with two seats. -/
def storeB : Store :=
  ⟨[⟨1, 2, "bob", "8", "BOOKED", 250⟩],
   [⟨1, 1, 2, 1, 1, 100⟩, ⟨2, 1, 2, 4, 2, 150⟩]⟩

theorem C5_cancel_status_and_total_witness :
    (cancel_seats storeB 1 [(1, 1)]).2 = .ok (refundFor storeB 1 [(1, 1)]) ∧
    (cancel_seats storeB 1 [(1, 1)]).1.tickets.find?
        (fun u => decide (u.id = 1)) =
      some (if remainingAfter storeB 1 [(1, 1)] = 0
            then { (⟨1, 2, "bob", "8", "BOOKED", 250⟩ : Ticket) with
                     status := "CANCELLED", total := 0 }
            else { (⟨1, 2, "bob", "8", "BOOKED", 250⟩ : Ticket) with
                     total := (250 : Int) - refundFor storeB 1 [(1, 1)] }) :=
  C5_cancel_status_and_total storeB 1 [(1, 1)]
    ⟨1, 2, "bob", "8", "BOOKED", 250⟩ rfl (by decide)

/-! ### Price snapshot round trip -/

lemma find?_append_none {α : Type} (p : α → Bool) (l1 l2 : List α)
    (h : ∀ x ∈ l1, ¬ p x = true) : (l1 ++ l2).find? p = l2.find? p := by
  induction l1 with
  | nil => simp
  | cons a l ih =>
    rw [List.cons_append, List.find?_cons_of_neg _ (h a (List.mem_cons_self a l))]
    exact ih (fun x hx => h x (List.mem_cons_of_mem a hx))

lemma newRows_fields (newRows : List TicketSeat) (seats : List (Nat × Nat))
    (tid showId : Nat) (p : Nat → Int)
    (hmap : newRows.map (fun ts => (ts.ticketId, ts.showId, ts.row, ts.col, ts.price)) =
      seats.map (fun q => (tid, showId, q.1, q.2, p q.1)))
    (ts : TicketSeat) (hts : ts ∈ newRows) :
    ts.ticketId = tid ∧ (ts.row, ts.col) ∈ seats ∧ ts.price = p ts.row := by
  have h1 : (ts.ticketId, ts.showId, ts.row, ts.col, ts.price) ∈
      seats.map (fun q => (tid, showId, q.1, q.2, p q.1)) := by
    rw [← hmap]
    exact List.mem_map_of_mem _ hts
  obtain ⟨q, hq, heq⟩ := List.mem_map.mp h1
  rw [Prod.ext_iff, Prod.ext_iff, Prod.ext_iff, Prod.ext_iff] at heq
  obtain ⟨e1, e2, e3, e4, e5⟩ := heq
  dsimp only at e1 e2 e3 e4 e5
  refine ⟨e1.symm, ?_, ?_⟩
  · rw [← e3, ← e4]
    simpa using hq
  · rw [← e5, ← e3]

lemma newRows_exists (newRows : List TicketSeat) (seats : List (Nat × Nat))
    (tid showId : Nat) (p : Nat → Int)
    (hmap : newRows.map (fun ts => (ts.ticketId, ts.showId, ts.row, ts.col, ts.price)) =
      seats.map (fun q => (tid, showId, q.1, q.2, p q.1)))
    (q : Nat × Nat) (hq : q ∈ seats) :
    ∃ ts ∈ newRows, ts.ticketId = tid ∧ ts.row = q.1 ∧ ts.col = q.2 := by
  have h1 : (tid, showId, q.1, q.2, p q.1) ∈
      newRows.map (fun ts => (ts.ticketId, ts.showId, ts.row, ts.col, ts.price)) := by
    rw [hmap]
    exact List.mem_map_of_mem _ hq
  obtain ⟨ts, hts, heq⟩ := List.mem_map.mp h1
  rw [Prod.ext_iff, Prod.ext_iff, Prod.ext_iff, Prod.ext_iff] at heq
  obtain ⟨e1, e2, e3, e4, e5⟩ := heq
  dsimp only at e1 e2 e3 e4 e5
  exact ⟨ts, hts, e1, e3, e4⟩

/-- The price found by the refund lookup against a store whose ticket_seat
rows are the pre-booking rows plus the rows inserted for ticket tid: for a
requested pair it is the booking-time policy price of its row, for any other
pair it is 0. -/
lemma priceAt_after_booking (s1 : Store) (old newRows : List TicketSeat)
    (seats : List (Nat × Nat)) (tid showId : Nat) (p : Nat → Int)
    (hseats : s1.ticketSeats = old ++ newRows)
    (hold : ∀ ts ∈ old, ts.ticketId ≠ tid)
    (hmap : newRows.map (fun ts => (ts.ticketId, ts.showId, ts.row, ts.col, ts.price)) =
      seats.map (fun q => (tid, showId, q.1, q.2, p q.1)))
    (q : Nat × Nat) :
    priceAt s1 tid q = if seats.contains q then p q.1 else 0 := by
  unfold priceAt
  rw [hseats, find?_append_none _ old newRows (fun ts hts hpred =>
    hold ts hts (of_decide_eq_true hpred).1)]
  by_cases hq : q ∈ seats
  · rw [if_pos (List.elem_eq_true_of_mem hq)]
    cases hfind : newRows.find? (fun ts =>
        decide (ts.ticketId = tid ∧ ts.row = q.1 ∧ ts.col = q.2)) with
    | none =>
      exfalso
      obtain ⟨ts, hts, h1, h2, h3⟩ := newRows_exists newRows seats tid showId p hmap q hq
      exact (List.find?_eq_none.mp hfind) ts hts (decide_eq_true_eq.mpr ⟨h1, h2, h3⟩)
    | some ts =>
      dsimp only
      have hts := List.mem_of_find?_eq_some hfind
      have hpred := List.find?_some hfind
      rw [decide_eq_true_eq] at hpred
      obtain ⟨f1, f2, f3⟩ := newRows_fields newRows seats tid showId p hmap ts hts
      rw [f3, hpred.2.1]
  · rw [if_neg (fun hc => hq (List.mem_of_elem_eq_true hc))]
    rw [List.find?_eq_none.mpr ?_]
    intro ts hts hpred
    rw [decide_eq_true_eq] at hpred
    obtain ⟨f1, f2, f3⟩ := newRows_fields newRows seats tid showId p hmap ts hts
    apply hq
    have hq2 : (ts.row, ts.col) = q := by
      rw [hpred.2.1, hpred.2.2]
    rw [← hq2]
    exact f2

/-- C6: the unit price stored for a seat at booking time is exactly the
price used for that seat by a later cancellation refund computation. The
pricing policy p here is arbitrary: whatever the policy returned at booking
time determines the refund, and cancel_seats takes no pricing input at all,
so later changes to the policy constants cannot affect the refund. -/
theorem C6_price_snapshot_roundtrip (p : Nat → Int) (s : Store) (showId : Nat)
    (user mobile : String) (seats : List (Nat × Nat)) (rows cols : Nat)
    (s1 : Store) (tid : Nat) (total : Int) (details : List (Nat × Nat × Int))
    (pairs : List (Nat × Nat))
    (hfresh : ∀ ts ∈ s.ticketSeats, ts.ticketId ≠ tid)
    (hok : bookSeatsWith p s showId user mobile seats rows cols =
      (s1, .ok (tid, total, details))) :
    (cancel_seats s1 tid pairs).2 =
      .ok ((pairs.map (fun q => if seats.contains q then p q.1 else 0)).sum) := by
  obtain ⟨htid, hdet, htot, htk, ⟨newRows, hseats, hmap⟩, hins⟩ :=
    bookSeatsWith_ok p s showId user mobile seats rows cols s1 tid total details hok
  have hfind : s1.tickets.find?
      (fun u => decide (u.id = tid ∧ u.status = "BOOKED")) =
      some ⟨tid, showId, user, mobile, "BOOKED", total⟩ := by
    rw [htk, find?_append_none _ _ _ ?_]
    · rw [List.find?_cons_of_pos _ (by simp)]
    · intro u hu hpred
      rw [decide_eq_true_eq] at hpred
      have hlt : u.id < tid := by
        rw [htid]
        exact mem_lt_nextId u.id _ (List.mem_map_of_mem _ hu)
      omega
  unfold cancel_seats
  rw [hfind]
  dsimp only
  congr 1
  induction pairs with
  | nil => rfl
  | cons q rest ih =>
    rw [refundFor, ih, List.map_cons, List.sum_cons,
      priceAt_after_booking s1 s.ticketSeats newRows seats tid showId p
        hseats hfresh hmap q]

/-- Store produced by booking seats (0,0) and (4,1) of showing 5 under the
pricing policy fun r => 7 * r + 5. -/
def storeC : Store :=
  ⟨[⟨1, 5, "cara", "6", "BOOKED", 38⟩],
   [⟨1, 1, 5, 0, 0, 5⟩, ⟨2, 1, 5, 4, 1, 33⟩]⟩

theorem C6_price_snapshot_roundtrip_witness :
    (cancel_seats storeC 1 [(4, 1), (6, 6)]).2 =
      .ok (([(4, 1), (6, 6)].map (fun q =>
        if [(0, 0), (4, 1)].contains q then (fun r => 7 * (r : Int) + 5) q.1
        else 0)).sum) :=
  C6_price_snapshot_roundtrip (fun r => 7 * (r : Int) + 5) emptyStore 5 "cara" "6"
    [(0, 0), (4, 1)] 7 7 storeC 1 38 [(0, 0, 5), (4, 1, 33)] [(4, 1), (6, 6)]
    (by simp [emptyStore]) rfl

/-! ### Agreement of the seat map projection and the point query -/

/-- Entry of a two-dimensional boolean grid, defaulting to true (available)
outside the lists. -/
def gridGet (g : List (List Bool)) (r c : Nat) : Bool :=
  (g.getD r []).getD c true

lemma getD_eq_getElem?_getD {α : Type} (l : List α) (i : Nat) (d : α) :
    l.getD i d = l[i]?.getD d := by
  simp only [List.getD, List.get?_eq_getElem?]

lemma length_markOccupied (rows cols : Nat) (g : List (List Bool)) (rc : Nat × Nat) :
    (markOccupied rows cols g rc).length = g.length := by
  unfold markOccupied
  split
  · exact List.length_set g _ _
  · rfl

lemma inner_markOccupied (rows cols : Nat) (g : List (List Bool)) (rc : Nat × Nat)
    (hlen : g.length = rows) (hinner : ∀ row ∈ g, row.length = cols) :
    ∀ row ∈ markOccupied rows cols g rc, row.length = cols := by
  unfold markOccupied
  split
  · intro row hrow
    rcases List.mem_or_eq_of_mem_set hrow with h | h
    · exact hinner _ h
    · subst h
      rw [List.length_set]
      rename_i hguard
      have hlt : rc.1 < g.length := by
        rw [hlen]
        have := (Bool.and_eq_true _ _).mp hguard
        exact of_decide_eq_true this.1
      have hrowv : g.getD rc.1 [] = g[rc.1] := by
        simp only [List.getD, List.get?_eq_getElem?, List.getElem?_eq_getElem hlt]
        rfl
      rw [hrowv]
      exact hinner _ (List.getElem_mem hlt)
  · exact hinner

lemma gridGet_markOccupied (rows cols : Nat) (g : List (List Bool)) (a b r c : Nat)
    (hlen : g.length = rows) (hinner : ∀ row ∈ g, row.length = cols)
    (hr : r < rows) (hc : c < cols) :
    gridGet (markOccupied rows cols g (a, b)) r c =
      (gridGet g r c && !(a == r && b == c)) := by
  unfold markOccupied gridGet
  dsimp only
  by_cases hg : (decide (a < rows) && decide (b < cols)) = true
  · rw [if_pos hg]
    by_cases har : a = r
    · subst har
      have hlt : a < g.length := by omega
      have hrow : (g.set a ((g.getD a []).set b false)).getD a [] =
          (g.getD a []).set b false := by
        simp only [List.getD, List.get?_eq_getElem?, List.getElem?_set_self',
          List.getElem?_eq_getElem hlt, Option.map_some, Option.getD_some,
          Function.const_apply]
      rw [hrow]
      by_cases hbc : b = c
      · subst hbc
        have hrowv : g.getD a [] = g[a] := by
          simp only [List.getD, List.get?_eq_getElem?, List.getElem?_eq_getElem hlt]
          rfl
        have hblt : b < (g.getD a []).length := by
          rw [hrowv, hinner _ (List.getElem_mem hlt)]
          exact hc
        have h3 : ((g.getD a []).set b false)[b]? = some false := by
          rw [List.getElem?_set_self', List.getElem?_eq_getElem hblt]
          rfl
        rw [getD_eq_getElem?_getD ((g.getD a []).set b false) b true, h3]
        simp
      · simp only [List.getD, List.get?_eq_getElem?,
          List.getElem?_set_ne (fun hx => hbc hx)]
        simp [hbc]
    · have hrow : (g.set a ((g.getD a []).set b false)).getD r [] = g.getD r [] := by
        simp only [List.getD, List.get?_eq_getElem?,
          List.getElem?_set_ne (fun hx => har hx)]
      rw [hrow]
      simp [har]
  · rw [if_neg hg]
    have hab : ¬ (a = r ∧ b = c) := by
      rintro ⟨rfl, rfl⟩
      exact hg (by simp [hr, hc])
    by_cases har : a = r
    · have hbc : ¬ b = c := fun hb => hab ⟨har, hb⟩
      simp [har, hbc]
    · simp [har]

lemma gridGet_foldl (rows cols : Nat) (occs : List (Nat × Nat))
    (g : List (List Bool)) (r c : Nat)
    (hlen : g.length = rows) (hinner : ∀ row ∈ g, row.length = cols)
    (hr : r < rows) (hc : c < cols) :
    gridGet (occs.foldl (markOccupied rows cols) g) r c =
      (gridGet g r c && !(occs.any (fun q => q.1 == r && q.2 == c))) := by
  induction occs generalizing g with
  | nil => simp
  | cons q rest ih =>
    obtain ⟨a, b⟩ := q
    rw [List.foldl_cons,
      ih (markOccupied rows cols g (a, b)) (by rw [length_markOccupied, hlen])
        (inner_markOccupied rows cols g (a, b) hlen hinner),
      gridGet_markOccupied rows cols g a b r c hlen hinner hr hc, List.any_cons]
    generalize gridGet g r c = x
    generalize ((a, b).1 == r && (a, b).2 == c) = y
    generalize rest.any (fun q => q.1 == r && q.2 == c) = z
    cases x <;> cases y <;> cases z <;> rfl

lemma gridGet_replicate (rows cols r c : Nat) (hr : r < rows) :
    gridGet (List.replicate rows (List.replicate cols true)) r c = true := by
  unfold gridGet
  rw [getD_eq_getElem?_getD (List.replicate rows (List.replicate cols true)) r [],
    List.getElem?_replicate, if_pos hr, Option.getD_some,
    getD_eq_getElem?_getD, List.getElem?_replicate]
  split <;> rfl

lemma bookedSeatsOf_any (s : Store) (showId r c : Nat) :
    (bookedSeatsOf s showId).any (fun q => q.1 == r && q.2 == c) =
      s.ticketSeats.any (fun ts =>
        decide (ts.showId = showId ∧ ts.row = r ∧ ts.col = c) &&
          isBookedTicket s ts.ticketId) := by
  unfold bookedSeatsOf
  induction s.ticketSeats with
  | nil => rfl
  | cons ts rest ih =>
    rw [List.filter_cons, List.any_cons]
    by_cases h1 : (decide (ts.showId = showId) && isBookedTicket s ts.ticketId) = true
    · rw [if_pos h1, List.map_cons, List.any_cons, ih]
      rw [Bool.and_eq_true] at h1
      obtain ⟨h1a, h1b⟩ := h1
      rw [decide_eq_true_eq] at h1a
      by_cases h2 : ts.row = r <;> by_cases h3 : ts.col = c <;>
        simp [h1a, h1b, h2, h3]
    · rw [if_neg h1, ih]
      by_cases hA : ts.showId = showId <;>
        by_cases hB : isBookedTicket s ts.ticketId = true <;>
        simp [hA, hB] at h1 ⊢

/-- C8: the point query and the grid projection agree. For every in-bounds
cell (row r, column c) of the rows-by-cols grid, the entry of the occupancy
grid built by build_seat_map is true (available) exactly when
is_seat_available answers true against the same store. -/
theorem C8_seat_map_agrees_with_point_query (s : Store) (showId rows cols r c : Nat)
    (hr : r < rows) (hc : c < cols) :
    ((build_seat_map s showId rows cols).getD r []).getD c true =
      is_seat_available s showId r c := by
  show gridGet (build_seat_map s showId rows cols) r c = is_seat_available s showId r c
  unfold build_seat_map
  rw [gridGet_foldl rows cols (bookedSeatsOf s showId) _ r c
      (List.length_replicate rows _)
      (fun row hrow => by rw [List.eq_of_mem_replicate hrow, List.length_replicate])
      hr hc,
    gridGet_replicate rows cols r c hr, Bool.true_and, bookedSeatsOf_any]
  rfl

/-- Store produced by booking seat (2,2) of showing 3 on a 7 by 7 grid. -/
def storeD : Store :=
  ⟨[⟨1, 3, "dee", "5", "BOOKED", 100⟩], [⟨1, 1, 3, 2, 2, 100⟩]⟩

theorem C8_seat_map_agrees_with_point_query_witness :
    ((build_seat_map storeD 3 7 7).getD 2 []).getD 2 true =
      is_seat_available storeD 3 2 2 :=
  C8_seat_map_agrees_with_point_query storeD 3 7 7 2 2 (by norm_num) (by norm_num)

/-! ### Wellformedness of reachable stores -/

/-- Invariant maintained by the booking operations: ticket ids are pairwise
distinct, the (show_id, row, col) keys of ticket_seat rows are pairwise
distinct (the UNIQUE constraint), and every ticket_seat row is owned by an
existing BOOKED ticket. -/
def WF (s : Store) : Prop :=
  (s.tickets.map Ticket.id).Nodup ∧
  (s.ticketSeats.map (fun ts => (ts.showId, ts.row, ts.col))).Nodup ∧
  ∀ ts ∈ s.ticketSeats, ∃ t ∈ s.tickets, t.id = ts.ticketId ∧ t.status = "BOOKED"

lemma insertRows_keys_nodup (tid showId : Nat) (details : List (Nat × Nat × Int))
    (cur res : List TicketSeat)
    (h : insertRows tid showId cur details = .ok res)
    (hnd : (cur.map (fun ts => (ts.showId, ts.row, ts.col))).Nodup) :
    (res.map (fun ts => (ts.showId, ts.row, ts.col))).Nodup := by
  induction details generalizing cur with
  | nil =>
    simp only [insertRows] at h
    cases h
    exact hnd
  | cons d rest ih =>
    obtain ⟨r, c, p⟩ := d
    simp only [insertRows] at h
    by_cases hdup : cur.any (fun ts =>
        decide (ts.showId = showId ∧ ts.row = r ∧ ts.col = c)) = true
    · rw [if_pos hdup] at h
      cases h
    · rw [if_neg hdup] at h
      apply ih _ h
      rw [List.map_append, List.nodup_append]
      refine ⟨hnd, by simp, ?_⟩
      intro k hk1 hk2
      simp only [List.map_cons, List.map_nil, List.mem_singleton] at hk2
      subst hk2
      obtain ⟨ts, hts, hkey⟩ := List.mem_map.mp hk1
      apply hdup
      apply List.any_eq_true.mpr
      refine ⟨ts, hts, ?_⟩
      rw [decide_eq_true_eq]
      rw [Prod.ext_iff, Prod.ext_iff] at hkey
      exact ⟨hkey.1, hkey.2.1, hkey.2.2⟩

lemma map_id_update (l : List Ticket) (tid : Nat) (g : Ticket → Ticket)
    (hg : ∀ u, (g u).id = u.id) :
    (l.map (fun u => if u.id = tid then g u else u)).map Ticket.id =
      l.map Ticket.id := by
  rw [List.map_map]
  apply List.map_congr_left
  intro u hu
  by_cases h : u.id = tid <;> simp [Function.comp, h, hg]

/-- Booking preserves the wellformedness invariant. -/
lemma WF_book (price : Nat → Int) (s : Store) (showId : Nat)
    (user mobile : String) (seats : List (Nat × Nat)) (rows cols : Nat)
    (hwf : WF s) :
    WF (bookSeatsWith price s showId user mobile seats rows cols).1 := by
  obtain ⟨wf1, wf2, wf3⟩ := hwf
  cases hb : bookSeatsWith price s showId user mobile seats rows cols with
  | mk s1 res =>
    cases res with
    | error e =>
      rw [bookSeatsWith_error price s showId user mobile seats rows cols s1 e hb]
      exact ⟨wf1, wf2, wf3⟩
    | ok v =>
      obtain ⟨tid, total, details⟩ := v
      obtain ⟨htid, hdet, htot, htk, ⟨newRows, hseats, hmap⟩, hins⟩ :=
        bookSeatsWith_ok price s showId user mobile seats rows cols
          s1 tid total details hb
      refine ⟨?_, ?_, ?_⟩
      · rw [htk, List.map_append, List.nodup_append]
        refine ⟨wf1, by simp, ?_⟩
        intro x hx1 hx2
        simp only [List.map_cons, List.map_nil, List.mem_singleton] at hx2
        subst hx2
        rw [htid] at hx1
        exact nextId_not_mem _ hx1
      · exact insertRows_keys_nodup tid showId details s.ticketSeats
          s1.ticketSeats hins wf2
      · intro ts hts
        rw [hseats] at hts
        rcases List.mem_append.mp hts with hmem | hmem
        · obtain ⟨t0, ht0, hid0, hst0⟩ := wf3 ts hmem
          exact ⟨t0, by rw [htk]; exact List.mem_append_left _ ht0, hid0, hst0⟩
        · obtain ⟨f1, f2, f3⟩ := newRows_fields newRows seats tid showId price hmap ts hmem
          refine ⟨⟨tid, showId, user, mobile, "BOOKED", total⟩, ?_, ?_, rfl⟩
          · rw [htk]
            exact List.mem_append_right _ (List.mem_singleton_self _)
          · exact f1.symm

/-- Cancellation preserves the wellformedness invariant. -/
lemma WF_cancel (s : Store) (tid : Nat) (pairs : List (Nat × Nat)) (hwf : WF s) :
    WF (cancel_seats s tid pairs).1 := by
  obtain ⟨wf1, wf2, wf3⟩ := hwf
  unfold cancel_seats
  cases hf : s.tickets.find? (fun t => decide (t.id = tid ∧ t.status = "BOOKED")) with
  | none =>
    exact ⟨wf1, wf2, wf3⟩
  | some t =>
    dsimp only
    have hkeys : ((deleteSeats tid s.ticketSeats pairs).map
        (fun ts => (ts.showId, ts.row, ts.col))).Nodup := by
      rw [deleteSeats_eq_filter]
      exact ((List.filter_sublist _).map _).nodup wf2
    have hmemdel : ∀ ts ∈ deleteSeats tid s.ticketSeats pairs,
        ts ∈ s.ticketSeats := by
      intro ts hts
      rw [deleteSeats_eq_filter] at hts
      exact (List.mem_filter.mp hts).1
    by_cases hrem : ((deleteSeats tid s.ticketSeats pairs).filter
        (fun ts => decide (ts.ticketId = tid))).length = 0
    · rw [if_pos hrem]
      refine ⟨?_, hkeys, ?_⟩
      · rw [map_id_update]
        · exact wf1
        · intro u
          rfl
      · intro ts hts
        obtain ⟨t0, ht0, hid0, hst0⟩ := wf3 ts (hmemdel ts hts)
        have ht0ne : ¬ t0.id = tid := by
          intro he
          have htsmem : ts ∈ (deleteSeats tid s.ticketSeats pairs).filter
              (fun ts => decide (ts.ticketId = tid)) := by
            apply List.mem_filter.mpr
            refine ⟨hts, ?_⟩
            rw [decide_eq_true_eq, ← hid0, he]
          rw [List.length_eq_zero.mp hrem] at htsmem
          cases htsmem
        refine ⟨t0, ?_, hid0, hst0⟩
        have himg := List.mem_map_of_mem
          (fun u => if u.id = tid then { u with status := "CANCELLED", total := 0 } else u) ht0
        simp only [if_neg ht0ne] at himg
        exact himg
    · rw [if_neg hrem]
      refine ⟨?_, hkeys, ?_⟩
      · rw [map_id_update]
        · exact wf1
        · intro u
          rfl
      · intro ts hts
        obtain ⟨t0, ht0, hid0, hst0⟩ := wf3 ts (hmemdel ts hts)
        by_cases ht0e : t0.id = tid
        · refine ⟨{ t0 with total := t.total - refundFor s tid pairs }, ?_, hid0, hst0⟩
          have himg := List.mem_map_of_mem
            (fun u => if u.id = tid then { u with total := t.total - refundFor s tid pairs } else u) ht0
          simp only [if_pos ht0e] at himg
          exact himg
        · refine ⟨t0, ?_, hid0, hst0⟩
          have himg := List.mem_map_of_mem
            (fun u => if u.id = tid then { u with total := t.total - refundFor s tid pairs } else u) ht0
          simp only [if_neg ht0e] at himg
          exact himg

/-- Every reachable store satisfies the wellformedness invariant. -/
lemma WF_reachable (s : Store) (h : Reachable s) : WF s := by
  induction h with
  | empty =>
    refine ⟨?_, ?_, ?_⟩ <;> simp [emptyStore]
  | book s showId user mobile seats rows cols hr ih =>
    exact WF_book get_price s showId user mobile seats rows cols ih
  | cancel s tid pairs hr ih =>
    exact WF_cancel s tid pairs ih

/-- C9 (amended): in every reachable state the occupied (row, col) pairs of
any showing are pairwise distinct. The in-bounds half of the original claim
fails: book_seats never validates bounds, see the counterexample. -/
theorem C9_no_duplicate_occupied_pairs (s : Store) (showId : Nat)
    (h : Reachable s) : (bookedSeatsOf s showId).Nodup := by
  obtain ⟨wf1, wf2, wf3⟩ := WF_reachable s h
  unfold bookedSeatsOf
  have h1 : ((s.ticketSeats.filter (fun ts =>
      decide (ts.showId = showId) && isBookedTicket s ts.ticketId)).map
        (fun ts => (ts.showId, ts.row, ts.col))).Nodup :=
    ((List.filter_sublist _).map _).nodup wf2
  have h2 : (s.ticketSeats.filter (fun ts =>
      decide (ts.showId = showId) && isBookedTicket s ts.ticketId)).map
        (fun ts => (ts.showId, ts.row, ts.col)) =
      ((s.ticketSeats.filter (fun ts =>
        decide (ts.showId = showId) && isBookedTicket s ts.ticketId)).map
          (fun ts => (ts.row, ts.col))).map (fun rc => (showId, rc.1, rc.2)) := by
    rw [List.map_map]
    apply List.map_congr_left
    intro ts hts
    have hmem := (List.mem_filter.mp hts).2
    rw [Bool.and_eq_true] at hmem
    have hshow := of_decide_eq_true hmem.1
    simp [Function.comp, hshow]
  rw [h2] at h1
  exact h1.of_map _

/-- C9 (counterexample to the in-bounds half of the claim): from the empty
store one book_seats call with the out-of-bounds seat (7, 0) on a 7 by 7
grid reaches a state in which (7, 0) is an occupied pair of showing 1, yet
(7, 0) does not lie within the 7 by 7 grid. -/
theorem C9_out_of_bounds_occupied_reachable :
    Reachable (book_seats emptyStore 1 "eve" "4" [(7, 0)] 7 7).1 ∧
    (7, 0) ∈ bookedSeatsOf (book_seats emptyStore 1 "eve" "4" [(7, 0)] 7 7).1 1 ∧
    ¬ ((7 : Nat) < 7 ∧ (0 : Nat) < 7) :=
  ⟨Reachable.book emptyStore 1 "eve" "4" [(7, 0)] 7 7 Reachable.empty,
   by decide, by omega⟩

theorem C9_no_duplicate_occupied_pairs_witness :
    (bookedSeatsOf (book_seats emptyStore 1 "fay" "3" [(0, 0), (3, 4)] 7 7).1 1).Nodup :=
  C9_no_duplicate_occupied_pairs _ 1
    (Reachable.book emptyStore 1 "fay" "3" [(0, 0), (3, 4)] 7 7 Reachable.empty)

/-- C10: in every reachable state, every ticket_seat row is owned by a
ticket whose status is BOOKED; equivalently, a CANCELLED reservation owns
zero reserved-seat rows. -/
theorem C10_seat_rows_owned_by_booked (s : Store) (ts : TicketSeat) (t : Ticket)
    (h : Reachable s) (hts : ts ∈ s.ticketSeats) (ht : t ∈ s.tickets)
    (hid : t.id = ts.ticketId) : t.status = "BOOKED" := by
  obtain ⟨wf1, wf2, wf3⟩ := WF_reachable s h
  obtain ⟨t0, ht0, hid0, hst0⟩ := wf3 ts hts
  have he : t = t0 := List.inj_on_of_nodup_map wf1 ht ht0 (by rw [hid, hid0])
  rw [he]
  exact hst0

theorem C10_seat_rows_owned_by_booked_witness :
    (⟨1, 4, "gus", "2", "BOOKED", 150⟩ : Ticket).status = "BOOKED" :=
  C10_seat_rows_owned_by_booked (book_seats emptyStore 4 "gus" "2" [(5, 5)] 7 7).1
    ⟨1, 1, 4, 5, 5, 150⟩ ⟨1, 4, "gus", "2", "BOOKED", 150⟩
    (Reachable.book emptyStore 4 "gus" "2" [(5, 5)] 7 7 Reachable.empty)
    (by decide) (by decide) rfl

end MovieTicket
